import Mathlib

/-!
# tcp-emitter/server — formal model and verification

A shallow embedding of the tcp-emitter server core (`src/tcp-emitter.js`,
`src/client.js`, `src/utils.js`, `src/index.js`) in Lean 4, together with
proofs and refutations of the specification's claims about it.

Modelling conventions:

* JavaScript strings are `List Char` (`JStr`); `String.prototype.split`
  with a non-empty separator is `splitOnList`.
* A JavaScript value reachable from `JSON.parse` is the inductive `Js`
  (numbers are collapsed to `Int`, which no verified claim depends on).
  `JSON.parse` itself is an external builtin, so the processing pipeline
  takes it as a parameter `jp : JsonParseFn`; theorems that depend on its
  behaviour at a particular input carry that behaviour as a hypothesis.
* Property access `v.k` is `getField`: it throws (`Except.error`) exactly
  on `null`/`undefined` receivers, and yields `undefined` for the keys the
  code reads (`type`, `event`, `args`) on every other non-object value,
  matching JavaScript.
* The tcp-emitter instance state is `TcpEmitter σ`: the server-side map
  `this.subscriptions` is a plain object literal, so its *own* properties
  are a function `JStr → Option (List σ)`, but property reads and the
  `in` operator also consult the prototype chain — for an event name that
  is an `Object.prototype` property (`isProtoKey`), a lookup with no own
  entry yields the inherited value (never `undefined`, and never an
  array, so a subsequent `push`/`indexOf`/`forEach` throws `TypeError`).
  Each client socket's `socket.subscriptions` array is collected in
  `sockSubs`.  Connections (`net.Socket` objects, compared with `===`)
  are an opaque type `σ` with decidable equality.
* The registry operations can therefore throw; each returns its result
  paired with a `Bool` recording whether it threw, and the state
  component carries exactly the mutations made before the throw.  A
  thrown `TypeError` propagates out of the `data`/`close` listener and
  ends the real trace; operation sequences (`applyOps`) nevertheless
  thread the state on, which only enlarges the set of states the
  invariant theorems cover.
* `socket.write` performs no registry mutation, so `broadcast` returns the
  list of performed writes; `JSON.stringify({ event, args }) + delimiter`
  is modelled by the injective record `WireMsg` carrying exactly those
  fields.
-/

namespace TcpEmitterSrv

/-- JavaScript strings, as lists of characters. -/
abbrev JStr := List Char

/-- The character list of a Lean string literal. -/
def chars (s : String) : JStr := s.data

/-! ## Frame decoder (`client.js`, `parseData`, lines 65–76) -/

/-- `leadsWith D s` holds when `D` is an initial segment of `s` (the
occurrence test `String.prototype.split` applies at each position). -/
def leadsWith : JStr → JStr → Bool
  | [], _ => true
  | _ :: _, [] => false
  | d :: dRest, c :: sRest => d == c && leadsWith dRest sRest

/-- `hasOccur D s` holds when `D` occurs as a contiguous substring of
`s` — i.e. `leadsWith D` succeeds at some position of `s`. -/
def hasOccur (D : JStr) : JStr → Bool
  | [] => leadsWith D []
  | c :: rest => leadsWith D (c :: rest) || hasOccur D rest

/-- Fuel-indexed worker for `splitOnList`: at each position, a match of
`D` ends the current piece and skips `D.length` characters; otherwise the
character is prepended to the head piece of the recursive result. -/
def splitOnAux (D : JStr) : Nat → JStr → List JStr
  | _, [] => [[]]
  | 0, s => [s]
  | fuel + 1, c :: rest =>
    if D ≠ [] ∧ leadsWith D (c :: rest) = true then
      [] :: splitOnAux D fuel ((c :: rest).drop D.length)
    else
      match splitOnAux D fuel rest with
      | [] => [[c]]
      | t :: ts => (c :: t) :: ts

/-- `String.prototype.split` with a non-empty separator string `D`:
leftmost-first, non-overlapping occurrences of `D` cut the string; the
result always has one more element than there are occurrences.  The
recursion consumes at least one character per step, so `s.length` steps
of fuel always suffice (`splitOnAux` is fuel-monotone past the length).
(The `D = []` behaviour of JavaScript — splitting into single
characters — is not modelled; the server requires a non-empty delimiter
and every theorem below assumes `D ≠ []`.) -/
def splitOnList (D : JStr) (s : JStr) : List JStr :=
  splitOnAux D s.length s

/-- The frame-decoding half of `parseData` (`client.js` lines 65–72):
`data.split(this.delimiter)` followed by `payloadsStr.length -= 1`, which
unconditionally discards the final element of the split. -/
def splitCandidates (D : JStr) (data : JStr) : List JStr :=
  (splitOnList D data).dropLast

/-! ## Payload validator/parser (`utils.js` `parseJSON`, `client.js`
`parseData` lines 76–95) -/

/-- A JavaScript value as produced by `JSON.parse`, extended with
`undefined` (the result of reading an absent property).  Numbers are
collapsed to `Int`; no verified claim inspects a numeric payload. -/
inductive Js where
  | nul
  | undef
  | bool (b : Bool)
  | num (n : Int)
  | str (s : JStr)
  | arr (xs : List Js)
  | obj (fields : List (JStr × Js))

/-- The type of the external `JSON.parse` builtin: a candidate string
either deserializes to a value or throws (`SyntaxError`). -/
abbrev JsonParseFn := JStr → Except Unit Js

/-- `utils.parseJSON` (`utils.js` lines 29–35): `try { return
JSON.parse(str) } catch (e) { return {} }` — a string on which the parse
throws is treated as the empty object. -/
def parseJSON (jp : JsonParseFn) (s : JStr) : Js :=
  match jp s with
  | .ok v => v
  | .error _ => Js.obj []

/-- First-match property lookup in an object's field list (`JSON.parse`
never produces duplicate keys, so first-match agrees with JavaScript). -/
def lookupField : List (JStr × Js) → JStr → Js
  | [], _ => Js.undef
  | (k', v) :: rest, k => if k' = k then v else lookupField rest k

/-- JavaScript property access `v[k]` for the keys the pipeline reads
(`type`, `event`, `args`): throws `TypeError` on a `null` or `undefined`
receiver, reads the field list of an object, and yields `undefined` on
every other value (booleans, numbers, strings and arrays have none of
these three properties). -/
def getField (v : Js) (k : JStr) : Except Unit Js :=
  match v with
  | .nul => .error ()
  | .undef => .error ()
  | .obj fields => .ok (lookupField fields k)
  | _ => .ok Js.undef

/-- The JavaScript `typeof` operator on a `Js` value. -/
def jsTypeof : Js → JStr
  | .nul => chars "object"
  | .undef => chars "undefined"
  | .bool _ => chars "boolean"
  | .num _ => chars "number"
  | .str _ => chars "string"
  | .arr _ => chars "object"
  | .obj _ => chars "object"

/-- `client.js` `parseData` (lines 65–96): split the received data on the
delimiter, drop the final split element, then for each candidate string
parse it (`parseJSON`), read `payload.type` and `payload.event`, discard
the payload unless both are strings, and emit the valid payloads in
order.  Property reads may throw (a thrown `TypeError` propagates out of
`forEach` and out of `parseData`), which the `Except` layer records. -/
def parseData (jp : JsonParseFn) (delimiter : JStr) (data : JStr) :
    Except Unit (List Js) :=
  (splitCandidates delimiter data).foldlM
    (fun acc payloadStr => do
      let payload := parseJSON jp payloadStr
      let tVal ← getField payload (chars "type")
      let eVal ← getField payload (chars "event")
      -- isTypeValid = typeof payload.type !== 'string' (true means invalid)
      let isTypeValid : Bool := !(jsTypeof tVal == chars "string")
      let isEventValid : Bool := !(jsTypeof eVal == chars "string")
      -- if (isTypeValid !== false || isEventValid !== false) return
      if isTypeValid || isEventValid then pure acc
      else pure (acc ++ [payload]))
    []

/-- A concrete stand-in for `JSON.parse` that exhibits the builtin's
behaviour on the single input `"null"` (on which `JSON.parse` succeeds
and returns `null`) and throws elsewhere; used to instantiate theorems
that take the parse function as a parameter. -/
def jpNull : JsonParseFn :=
  fun s => if s = chars "null" then .ok Js.nul else .error ()

/-! ## Subscription registry and broadcast engine (`tcp-emitter.js`) -/

/-- The own property names of `Object.prototype` in Node.js.  The
registry `this.subscriptions = {}` is a plain object, so for these
strings the `in` operator is `true` and a property read returns the
inherited value even when the registry has no own entry. -/
def protoKeys : List JStr :=
  [chars "constructor", chars "hasOwnProperty", chars "isPrototypeOf",
   chars "propertyIsEnumerable", chars "toLocaleString", chars "toString",
   chars "valueOf", chars "__defineGetter__", chars "__defineSetter__",
   chars "__lookupGetter__", chars "__lookupSetter__", chars "__proto__"]

/-- Whether an event name collides with an `Object.prototype` property.
For such a name, a registry lookup with no own entry yields an inherited
function (or, for `__proto__`, the prototype object) — a value that is
neither `undefined` nor an array, so `push`, `indexOf` and `forEach` on
it throw `TypeError`. -/
def isProtoKey (e : JStr) : Bool := protoKeys.contains e

/-- The state of a tcp-emitter instance plus the per-socket subscription
arrays of its clients.  `delimiter` and `subscriptions` are the fields of
the `tcp-emitter` object (`tcp-emitter.js` lines 43, 52);
`subscriptions` holds the registry object's *own* properties (prototype
lookups are resolved by `isProtoKey` at each use site); `sockSubs c` is
the `subscriptions` array of client socket `c` (`client.js` line 30,
initialised to `[]` by `client.init`). -/
structure TcpEmitter (σ : Type) where
  delimiter : JStr
  subscriptions : JStr → Option (List σ)
  sockSubs : σ → List JStr

variable {σ : Type} [DecidableEq σ] {α : Type}

/-- `tcp-emitter.init` (`tcp-emitter.js` lines 61–69): empty registry;
the delimiter option is used when it is a string and defaults to
`"@@@"` otherwise.  Every client socket starts with an empty
`subscriptions` array (`client.init`). -/
def init (optsDelimiter : Option JStr) : TcpEmitter σ :=
  { delimiter := optsDelimiter.getD (chars "@@@")
    subscriptions := fun _ => none
    sockSubs := fun _ => [] }

/-- The freshly initialised server: `init` with no options. -/
def initSt : TcpEmitter σ := init none

/-- `tcp-emitter.subscribe` (`tcp-emitter.js` lines 147–166): add the
event to the socket's `subscriptions` array only if it is not already
present (`indexOf === -1`); then
`(event in this.subscriptions) ? this.subscriptions[event]
: this.subscriptions[event] = []` fetches — or, when the `in` check
fails, creates — the listener array, and `listeners.push(socket)` is
unconditional.  With an own entry the push appends; with no own entry
for a prototype-colliding name the `in` check still succeeds, the lookup
yields the inherited value, and the push throws `TypeError` (after the
`sockSubs` mutation, and without touching the registry object).  The
returned `Bool` records the throw. -/
def subscribe (c : σ) (event : JStr) (te : TcpEmitter σ) :
    TcpEmitter σ × Bool :=
  let sockList :=
    if event ∈ te.sockSubs c then te.sockSubs c else te.sockSubs c ++ [event]
  let te1 :=
    { te with sockSubs := fun x => if x = c then sockList else te.sockSubs x }
  match te.subscriptions event with
  | some listeners =>
    -- own entry: `in` is true, lookup returns the own array, push appends
    ({ te1 with
        subscriptions := fun e =>
          if e = event then some (listeners ++ [c])
          else te.subscriptions e },
      false)
  | none =>
    if isProtoKey event then
      -- `in` true via the prototype chain; push on the inherited value
      -- throws TypeError
      (te1, true)
    else
      -- `in` false: `this.subscriptions[event] = []`, then push
      ({ te1 with
          subscriptions := fun e =>
            if e = event then some [c] else te.subscriptions e },
        false)

/-- `tcp-emitter.unsubscribe` (`tcp-emitter.js` lines 177–222): splice
the event out of the socket's `subscriptions` array if present; then
`const listeners = this.subscriptions[event]`.  With an own entry: if
the socket occurs in it, splice out its first occurrence, deleting the
event's entry entirely when the array becomes empty.  With no own entry:
for an ordinary name the lookup is `undefined` and the guard returns;
for a prototype-colliding name the lookup yields the inherited value,
the `undefined` guard passes, and `listeners.indexOf(socket)` throws
`TypeError` (the `sockSubs` splice has already happened).  The returned
`Bool` records the throw. -/
def unsubscribe (c : σ) (event : JStr) (te : TcpEmitter σ) :
    TcpEmitter σ × Bool :=
  let sockList := (te.sockSubs c).erase event
  let te1 :=
    { te with sockSubs := fun x => if x = c then sockList else te.sockSubs x }
  match te.subscriptions event with
  | none => (te1, isProtoKey event)
  | some listeners =>
    if c ∈ listeners then
      let listeners' := listeners.erase c
      if listeners' = [] then
        ({ te1 with
            subscriptions := fun e =>
              if e = event then none else te.subscriptions e },
          false)
      else
        ({ te1 with
            subscriptions := fun e =>
              if e = event then some listeners' else te.subscriptions e },
          false)
    else (te1, false)

/-- One outbound write performed by `broadcast`:
`JSON.stringify({ event, args }) + this.delimiter` (`tcp-emitter.js`
line 251), with `JSON.stringify` kept abstract — the record carries
exactly the serialized fields, injectively.  `args` is opaque to the
core (type parameter `α`). -/
structure WireMsg (α : Type) where
  event : JStr
  args : α
  delimiter : JStr
deriving DecidableEq

/-- `tcp-emitter.broadcast` (`tcp-emitter.js` lines 237–253):
`const listeners = this.subscriptions[event]`.  With no own entry and an
ordinary event name, `listeners === undefined` and the call returns
silently; with no own entry and a prototype-colliding name the lookup
yields the inherited value, the guard passes, and `listeners.forEach`
throws `TypeError` before any write.  With an own entry, the serialized
frame is written to every listener in array order, skipping the
originating socket (identity comparison `listener === socket`).  The
registry is only read, never written; the result is the list of
performed writes `(target, message)` and whether the call threw. -/
def broadcast (c : σ) (event : JStr) (args : α) (te : TcpEmitter σ) :
    List (σ × WireMsg α) × Bool :=
  match te.subscriptions event with
  | none => ([], isProtoKey event)
  | some listeners =>
    ((listeners.filter (fun l => l ≠ c)).map
      (fun l => (l, ⟨event, args, te.delimiter⟩)), false)

/-- A validated payload, as dispatched by `tcp-emitter.parsePayload`
(`tcp-emitter.js` lines 115–136): the `switch` on the (string) `type`
field reaches one of the three operations, and any other string type
falls through with no effect (`otherOp`). -/
inductive PayloadOp (α : Type) where
  | broadcastOp (event : JStr) (args : α)
  | subscribeOp (event : JStr)
  | unsubscribeOp (event : JStr)
  | otherOp

/-- `tcp-emitter.parsePayload`: dispatch one validated payload from
socket `c`, producing the next registry state, the writes performed, and
whether the dispatched operation threw. -/
def parsePayload (op : PayloadOp α) (c : σ) (te : TcpEmitter σ) :
    TcpEmitter σ × List (σ × WireMsg α) × Bool :=
  match op with
  | .broadcastOp event args =>
    (te, (broadcast c event args te).1, (broadcast c event args te).2)
  | .subscribeOp event =>
    ((subscribe c event te).1, [], (subscribe c event te).2)
  | .unsubscribeOp event =>
    ((unsubscribe c event te).1, [], (unsubscribe c event te).2)
  | .otherOp => (te, [], false)

/-- An owner-facing notification of the server, as documented in the
repository's README (`Events` table) and asserted by its test suite:
the event names are declared in `event-list.js`
(`tcp-emitter-subscribe`, `tcp-emitter-unsubscribe`,
`tcp-emitter-broadcast`) and forwarded from the tcp-emitter instance to
the `net.Server` in `index.js` lines 46–50. -/
inductive OwnerNotif (σ α : Type) where
  | subscribed (c : σ) (event : JStr)
  | unsubscribed (c : σ) (event : JStr)
  | broadcasted (c : σ) (event : JStr) (args : α)
deriving DecidableEq

/-- The owner-facing notifications emitted while dispatching one payload.
The bodies of `subscribe` (lines 147–166), `unsubscribe` (lines 177–222)
and `broadcast` (lines 237–253) in `tcp-emitter.js` contain no
`this.emit` call at all, and neither `setupSocket` nor `handleSocket`
emits any of the three owner-facing event names, so every dispatch emits
the empty list: the events forwarded by `index.js` lines 46–50 are never
fired. -/
def parsePayloadNotifs (_op : PayloadOp α) (_c : σ) (_te : TcpEmitter σ) :
    List (OwnerNotif σ α) := []

/-- Folding `unsubscribe` over a list of event names, stopping — as the
thrown `TypeError` aborts the `forEach` — at the first unsubscribe that
throws.  The result records whether the fold was aborted. -/
def foldUnsub (c : σ) : List JStr → TcpEmitter σ → TcpEmitter σ × Bool
  | [], te => (te, false)
  | event :: rest, te =>
    match unsubscribe c event te with
    | (te', false) => foldUnsub c rest te'
    | (te', true) => (te', true)

/-- The `close` listener installed by `tcp-emitter.setupSocket`
(`tcp-emitter.js` lines 96–103): take a snapshot
(`subscriptions.slice(0)`) of the socket's subscription array and
unsubscribe the socket from each event in it, in order, over the
evolving shared state; an unsubscribe that throws aborts the remaining
iterations. -/
def closeHandler (c : σ) (te : TcpEmitter σ) : TcpEmitter σ × Bool :=
  foldUnsub c (te.sockSubs c) te

/-! ## Operation sequences over the registry -/

/-- A registry-mutating occurrence: a dispatched subscribe payload, a
dispatched unsubscribe payload, or a socket's stream closing. -/
inductive Op (σ : Type) where
  | sub (c : σ) (event : JStr)
  | unsub (c : σ) (event : JStr)
  | close (c : σ)

/-- Apply one occurrence to the registry state.  The state component of
each operation carries exactly the mutations made up to a possible
throw, so threading it covers every state the real shared object passes
through (a throwing operation additionally ends the real trace, making
this a superset of the reachable histories). -/
def applyOp (te : TcpEmitter σ) : Op σ → TcpEmitter σ
  | .sub c event => (subscribe c event te).1
  | .unsub c event => (unsubscribe c event te).1
  | .close c => (closeHandler c te).1

/-- Apply a sequence of occurrences, oldest first. -/
def applyOps (ops : List (Op σ)) (te : TcpEmitter σ) : TcpEmitter σ :=
  ops.foldl applyOp te

/-- A sequence of occurrences is safe when no `subscribe` in it targets a
`(socket, event)` pair that is already subscribed at that point, and no
`subscribe` uses an event name colliding with an `Object.prototype`
property (on which `subscribe` throws after mutating only the socket's
own array). -/
def safeOps : List (Op σ) → TcpEmitter σ → Bool
  | [], _ => true
  | Op.sub c event :: rest, te =>
    if event ∈ te.sockSubs c then false
    else if isProtoKey event then false
    else safeOps rest (applyOp te (Op.sub c event))
  | op :: rest, te => safeOps rest (applyOp te op)

/-- `c` appears in the registry's listener array for `event` (an absent
entry has no members). -/
def memListeners (te : TcpEmitter σ) (event : JStr) (c : σ) : Prop :=
  c ∈ (te.subscriptions event).getD []

instance (te : TcpEmitter σ) (event : JStr) (c : σ) :
    Decidable (memListeners te event c) := by
  unfold memListeners; infer_instance

/-- The registry invariant the specification asserts (I1 plus the
bookkeeping facts that make it inductive): per-socket subscription
arrays and listener arrays are duplicate-free, no listener array is
empty, no prototype-colliding event name has an own registry entry
(`subscribe` throws before ever creating one), and a socket appears in
an event's listener array exactly when the event appears in the socket's
subscription array. -/
structure Inv (te : TcpEmitter σ) : Prop where
  nodupSock : ∀ c, (te.sockSubs c).Nodup
  nodupListeners : ∀ e L, te.subscriptions e = some L → L.Nodup
  listenersNe : ∀ e L, te.subscriptions e = some L → L ≠ []
  protoNone : ∀ e, isProtoKey e = true → te.subscriptions e = none
  sym : ∀ c e, memListeners te e c ↔ e ∈ te.sockSubs c

/-! ## Admission gate (`tcp-emitter.js` `handleSocket`, lines 265–299) -/

/-- The behaviour of one invocation of the configured `verifyClient`
predicate on a socket: it returns a plain value, throws synchronously,
or returns a promise that resolves to a value or rejects. -/
inductive VerifyOutcome where
  | ret (v : Js)
  | thrown
  | resolved (v : Js)
  | rejected

/-- Strict equality against the literal `true`
(`await verifyClient(socket) === true`). -/
def isJsTrue : Js → Bool
  | .bool true => true
  | _ => false

/-- The `isConnectionAllowed` computation of `handleSocket`
(`tcp-emitter.js` lines 277–290): allowed when no function is configured
(`typeof verifyClient !== 'function'`), or when the predicate's value —
awaited, so a resolved promise contributes its resolution value — is
strictly `true`; a synchronous throw or a rejection lands in the `catch`
and denies. -/
def isConnectionAllowed (verifyClient : Option (σ → VerifyOutcome))
    (s : σ) : Bool :=
  match verifyClient with
  | none => true
  | some f =>
    match f s with
    | .ret v => isJsTrue v
    | .resolved v => isJsTrue v
    | .thrown => false
    | .rejected => false

/-- What becomes of a newly accepted connection. -/
inductive SocketFate where
  | wired
  | ended
deriving DecidableEq

/-- `handleSocket`'s connection listener (`tcp-emitter.js` lines
272–298): a denied connection is ended immediately
(`return socket.end()`); an allowed one is wired into the pipeline
(`this.setupSocket(socket)`).  Neither path touches the registry —
registry mutations happen only when a wired socket later emits
payloads. -/
def handleSocket (verifyClient : Option (σ → VerifyOutcome)) (s : σ) :
    SocketFate :=
  if isConnectionAllowed verifyClient s = false then .ended else .wired

/-! ## Lemmas about the frame decoder -/

theorem leadsWith_iff_take {D : JStr} : ∀ {s : JStr},
    leadsWith D s = true ↔ s.take D.length = D := by
  induction D with
  | nil => intro s; simp [leadsWith]
  | cons d D' ih =>
    intro s
    cases s with
    | nil => simp [leadsWith]
    | cons c s' =>
      simp only [leadsWith, Bool.and_eq_true, beq_iff_eq, List.length_cons,
        List.take_succ_cons, List.cons.injEq, ih]
      constructor
      · rintro ⟨rfl, h⟩; exact ⟨rfl, h⟩
      · rintro ⟨rfl, h⟩; exact ⟨rfl, h⟩

theorem leadsWith_append {D rest : JStr} : leadsWith D (D ++ rest) = true := by
  rw [leadsWith_iff_take]
  rw [List.take_append_eq_append_take, List.take_length, Nat.sub_self,
    List.take_zero, List.append_nil]

theorem hasOccur_of_leadsWith {D s : JStr} (hD : D ≠ [])
    (h : leadsWith D s = true) : hasOccur D s = true := by
  cases s with
  | nil =>
    cases D with
    | nil => exact absurd rfl hD
    | cons d D' => simp [leadsWith] at h
  | cons c rest => simp [hasOccur, h]

theorem hasOccur_cons_false {D : JStr} {c : Char} {rest : JStr}
    (h : hasOccur D (c :: rest) = false) :
    leadsWith D (c :: rest) = false ∧ hasOccur D rest = false := by
  simpa [hasOccur, Bool.or_eq_false_iff] using h

/-- Straddle exclusion: a match of `D` strictly before the terminator of a
non-empty payload `p` lies entirely inside `p ++ D.dropLast`. -/
theorem leadsWith_straddle {D p rest : JStr} (hD : D ≠ []) (hp : p ≠ [])
    (h : leadsWith D (p ++ D ++ rest) = true) :
    leadsWith D (p ++ D.dropLast) = true := by
  rw [leadsWith_iff_take] at h ⊢
  have hsplit : p ++ D ++ rest = (p ++ D.dropLast) ++ ([D.getLast hD] ++ rest) := by
    conv_lhs => rw [← List.dropLast_append_getLast hD]
    simp [List.append_assoc]
  rw [hsplit, List.take_append_eq_append_take] at h
  have hlen : D.length ≤ (p ++ D.dropLast).length := by
    have hppos : 0 < p.length := List.length_pos.mpr hp
    have hdpos : 0 < D.length := List.length_pos.mpr hD
    simp only [List.length_append, List.length_dropLast]
    omega
  rw [Nat.sub_eq_zero_of_le hlen, List.take_zero, List.append_nil] at h
  exact h

theorem splitOnAux_congr (D : JStr) : ∀ (fuel fuel' : Nat) (s : JStr),
    s.length ≤ fuel → s.length ≤ fuel' →
    splitOnAux D fuel s = splitOnAux D fuel' s := by
  intro fuel
  induction fuel with
  | zero =>
    intro fuel' s hs _
    have hnil : s = [] := List.eq_nil_of_length_eq_zero (Nat.le_zero.mp hs)
    subst hnil
    cases fuel' <;> simp [splitOnAux]
  | succ f ih =>
    intro fuel' s hs hs'
    cases s with
    | nil => cases fuel' <;> simp [splitOnAux]
    | cons c rest =>
      cases fuel' with
      | zero => simp at hs'
      | succ f' =>
        simp only [splitOnAux]
        by_cases h : D ≠ [] ∧ leadsWith D (c :: rest) = true
        · rw [if_pos h, if_pos h]
          have hdpos : 0 < D.length := List.length_pos.mpr h.1
          have hlen : ((c :: rest).drop D.length).length ≤ f := by
            simp only [List.length_drop, List.length_cons]
            simp only [List.length_cons] at hs
            omega
          have hlen' : ((c :: rest).drop D.length).length ≤ f' := by
            simp only [List.length_drop, List.length_cons]
            simp only [List.length_cons] at hs'
            omega
          rw [ih f' _ hlen hlen']
        · rw [if_neg h, if_neg h]
          have hrest : rest.length ≤ f := by
            simp only [List.length_cons] at hs; omega
          have hrest' : rest.length ≤ f' := by
            simp only [List.length_cons] at hs'; omega
          rw [ih f' rest hrest hrest']

theorem splitOnAux_no_occur {D : JStr} : ∀ (fuel : Nat) (s : JStr),
    s.length ≤ fuel → hasOccur D s = false → splitOnAux D fuel s = [s] := by
  intro fuel
  induction fuel with
  | zero =>
    intro s hs _
    have hnil : s = [] := List.eq_nil_of_length_eq_zero (Nat.le_zero.mp hs)
    subst hnil; rfl
  | succ f ih =>
    intro s hs hocc
    cases s with
    | nil => rfl
    | cons c rest =>
      obtain ⟨hlw, hrest⟩ := hasOccur_cons_false hocc
      simp only [splitOnAux]
      rw [if_neg (by simp [hlw])]
      rw [ih rest (by simp only [List.length_cons] at hs; omega) hrest]

/-- A string in which the delimiter does not occur is a single piece. -/
theorem splitOnList_no_occur {D s : JStr} (h : hasOccur D s = false) :
    splitOnList D s = [s] :=
  splitOnAux_no_occur s.length s le_rfl h

/-- Peeling one delimiter-terminated payload off the front of the stream:
valid as long as no occurrence of `D` starts inside the payload (the
`p ++ D.dropLast` window covers matches that straddle into the
terminator). -/
theorem splitOnList_step {D p rest : JStr} (hD : D ≠ [])
    (hocc : hasOccur D (p ++ D.dropLast) = false) :
    splitOnList D (p ++ D ++ rest) = p :: splitOnList D rest := by
  suffices h : ∀ (fuel : Nat) (p : JStr), (p ++ D ++ rest).length ≤ fuel →
      hasOccur D (p ++ D.dropLast) = false →
      splitOnAux D fuel (p ++ D ++ rest) = p :: splitOnList D rest by
    exact h _ p le_rfl hocc
  intro fuel
  induction fuel with
  | zero =>
    intro p hlen _
    exfalso
    have hdpos : 0 < D.length := List.length_pos.mpr hD
    simp only [List.length_append, Nat.le_zero] at hlen
    omega
  | succ f ih =>
    intro p hlen hocc
    cases p with
    | nil =>
      simp only [List.nil_append] at hlen ⊢
      obtain ⟨d, D', rfl⟩ := List.exists_cons_of_ne_nil hD
      rw [List.cons_append]
      simp only [splitOnAux]
      rw [if_pos ⟨hD, by rw [← List.cons_append]; exact leadsWith_append⟩]
      rw [← List.cons_append, List.drop_left]
      rw [splitOnAux_congr _ f rest.length rest
        (by simp only [List.length_append, List.length_cons] at hlen
            omega)
        le_rfl]
      rfl
    | cons a p' =>
      have hlw : leadsWith D (a :: p' ++ D ++ rest) = false := by
        by_contra hcon
        have htrue : leadsWith D ((a :: p') ++ D ++ rest) = true :=
          eq_true_of_ne_false hcon
        have hres := hasOccur_of_leadsWith hD
          (leadsWith_straddle hD (List.cons_ne_nil a p') htrue)
        rw [hres] at hocc
        cases hocc
      obtain ⟨_, hocc'⟩ := @hasOccur_cons_false D a
        (p' ++ D.dropLast) (by simpa using hocc)
      simp only [List.cons_append, splitOnAux]
      rw [if_neg (by
        rintro ⟨-, hc⟩
        have h2 : leadsWith D (a :: p' ++ D ++ rest) = true := hc
        rw [hlw] at h2
        cases h2)]
      simp only [List.append_eq]
      rw [ih p' (by simp only [List.length_cons, List.length_append]
                      at hlen ⊢
                    omega) hocc']

/-- The full framing identity: a stream of delimiter-terminated payloads
followed by a delimiter-free remainder splits into exactly those payloads
followed by the remainder, provided no occurrence of `D` starts inside a
payload. -/
theorem splitOnList_terminated {D : JStr} (ps : List JStr) (r : JStr)
    (hD : D ≠ []) (hps : ∀ p ∈ ps, hasOccur D (p ++ D.dropLast) = false)
    (hr : hasOccur D r = false) :
    splitOnList D ((ps.map (· ++ D)).flatten ++ r) = ps ++ [r] := by
  induction ps with
  | nil => simpa using splitOnList_no_occur hr
  | cons p ps' ih =>
    simp only [List.map_cons, List.flatten_cons, List.append_assoc]
    rw [← List.append_assoc p D _]
    rw [splitOnList_step hD (hps p (List.mem_cons_self p ps'))]
    rw [ih (fun q hq => hps q (List.mem_cons_of_mem p hq))]
    rfl

/-! ## Characterization lemmas for the registry operations -/

theorem subscribe_subscriptions_some (c : σ) (e : JStr) (te : TcpEmitter σ)
    {L : List σ} (h : te.subscriptions e = some L) :
    (subscribe c e te).1.subscriptions e = some (L ++ [c]) := by
  simp [subscribe, h]

/-- For an event name free of prototype collision, `subscribe` appends
the socket to the (possibly fresh) own listener array. -/
theorem subscribe_subscriptions_nonproto (c : σ) (e : JStr)
    (te : TcpEmitter σ) (hp : isProtoKey e = false) :
    (subscribe c e te).1.subscriptions e
      = some ((te.subscriptions e).getD [] ++ [c]) := by
  cases h : te.subscriptions e with
  | some L => simp [subscribe, h]
  | none => simp [subscribe, h, hp]

/-- For a prototype-colliding event name with no own entry, `subscribe`
throws at the push and leaves the registry object untouched. -/
theorem subscribe_proto_throws (c : σ) (e : JStr) (te : TcpEmitter σ)
    (hp : isProtoKey e = true) (h : te.subscriptions e = none) :
    (subscribe c e te).2 = true ∧
    ∀ e', (subscribe c e te).1.subscriptions e' = te.subscriptions e' := by
  refine ⟨by simp [subscribe, h, hp], fun e' => by simp [subscribe, h, hp]⟩

theorem subscribe_subscriptions_ne (c : σ) {e e' : JStr} (te : TcpEmitter σ)
    (h : e' ≠ e) :
    (subscribe c e te).1.subscriptions e' = te.subscriptions e' := by
  cases hs : te.subscriptions e with
  | some L => simp [subscribe, hs, h]
  | none => cases hp : isProtoKey e <;> simp [subscribe, hs, hp, h]

theorem subscribe_sockSubs_self (c : σ) (e : JStr) (te : TcpEmitter σ) :
    (subscribe c e te).1.sockSubs c
      = if e ∈ te.sockSubs c then te.sockSubs c else te.sockSubs c ++ [e] := by
  cases hs : te.subscriptions e with
  | some L => simp [subscribe, hs]
  | none => cases hp : isProtoKey e <;> simp [subscribe, hs, hp]

theorem subscribe_sockSubs_ne (e : JStr) (te : TcpEmitter σ) {x c : σ}
    (h : x ≠ c) : (subscribe c e te).1.sockSubs x = te.sockSubs x := by
  cases hs : te.subscriptions e with
  | some L => simp [subscribe, hs, h]
  | none => cases hp : isProtoKey e <;> simp [subscribe, hs, hp, h]

theorem subscribe_delimiter (c : σ) (e : JStr) (te : TcpEmitter σ) :
    (subscribe c e te).1.delimiter = te.delimiter := by
  cases hs : te.subscriptions e with
  | some L => simp [subscribe, hs]
  | none => cases hp : isProtoKey e <;> simp [subscribe, hs, hp]

theorem subscribe_threw_nonproto (c : σ) (e : JStr) (te : TcpEmitter σ)
    (hp : isProtoKey e = false) : (subscribe c e te).2 = false := by
  cases hs : te.subscriptions e with
  | some L => simp [subscribe, hs]
  | none => simp [subscribe, hs, hp]

theorem unsubscribe_sockSubs (c : σ) (e : JStr) (te : TcpEmitter σ) (x : σ) :
    (unsubscribe c e te).1.sockSubs x
      = if x = c then (te.sockSubs c).erase e else te.sockSubs x := by
  unfold unsubscribe
  cases te.subscriptions e with
  | none => rfl
  | some listeners => dsimp only; split_ifs <;> simp [*]

theorem unsubscribe_subscriptions_ne (c : σ) {e e' : JStr}
    (te : TcpEmitter σ) (h : e' ≠ e) :
    (unsubscribe c e te).1.subscriptions e' = te.subscriptions e' := by
  unfold unsubscribe
  cases te.subscriptions e with
  | none => rfl
  | some listeners => dsimp only; split_ifs <;> simp [h]

theorem unsubscribe_subscriptions_none (c : σ) (e : JStr)
    (te : TcpEmitter σ) (h : te.subscriptions e = none) :
    (unsubscribe c e te).1.subscriptions e = none := by
  unfold unsubscribe
  rw [h]
  exact h

theorem unsubscribe_subscriptions_not_mem (c : σ) (e : JStr)
    (te : TcpEmitter σ) {L : List σ} (h : te.subscriptions e = some L)
    (hc : c ∉ L) : (unsubscribe c e te).1.subscriptions e = some L := by
  unfold unsubscribe
  rw [h]
  dsimp only
  rw [if_neg hc]
  exact h

theorem unsubscribe_subscriptions_last (c : σ) (e : JStr)
    (te : TcpEmitter σ) {L : List σ} (h : te.subscriptions e = some L)
    (hc : c ∈ L) (hnil : L.erase c = []) :
    (unsubscribe c e te).1.subscriptions e = none := by
  unfold unsubscribe
  rw [h]
  dsimp only
  rw [if_pos hc, if_pos hnil]
  simp

theorem unsubscribe_subscriptions_erase (c : σ) (e : JStr)
    (te : TcpEmitter σ) {L : List σ} (h : te.subscriptions e = some L)
    (hc : c ∈ L) (hnil : L.erase c ≠ []) :
    (unsubscribe c e te).1.subscriptions e = some (L.erase c) := by
  unfold unsubscribe
  rw [h]
  dsimp only
  rw [if_pos hc, if_neg hnil]
  simp

theorem unsubscribe_delimiter (c : σ) (e : JStr) (te : TcpEmitter σ) :
    (unsubscribe c e te).1.delimiter = te.delimiter := by
  unfold unsubscribe
  cases te.subscriptions e with
  | none => rfl
  | some listeners => dsimp only; split_ifs <;> rfl

/-- `unsubscribe` throws only on a prototype-colliding name (with no own
entry); for an ordinary event name it always returns normally. -/
theorem unsubscribe_threw_nonproto (c : σ) (e : JStr) (te : TcpEmitter σ)
    (hp : isProtoKey e = false) : (unsubscribe c e te).2 = false := by
  unfold unsubscribe
  cases te.subscriptions e with
  | none => simpa using hp
  | some listeners => dsimp only; split_ifs <;> rfl

/-! ## Invariant preservation -/

theorem nodup_append_singleton {β : Type} {l : List β} {a : β} :
    (l ++ [a]).Nodup ↔ l.Nodup ∧ a ∉ l := by
  simp [List.nodup_append]

/-- A fresh subscribe — the event not yet in the socket's array and not a
prototype-colliding name — preserves the registry invariant. -/
theorem subscribe_inv {te : TcpEmitter σ} {c : σ} {e : JStr} (h : Inv te)
    (hfresh : e ∉ te.sockSubs c) (hproto : isProtoKey e = false) :
    Inv (subscribe c e te).1 := by
  have hnotmem : ¬ memListeners te e c := fun hm => hfresh ((h.sym c e).mp hm)
  constructor
  · intro x
    by_cases hx : x = c
    · subst hx
      rw [subscribe_sockSubs_self, if_neg hfresh]
      exact nodup_append_singleton.mpr ⟨h.nodupSock x, hfresh⟩
    · rw [subscribe_sockSubs_ne _ _ hx]; exact h.nodupSock x
  · intro e' L hL
    by_cases he : e' = e
    · subst he
      rw [subscribe_subscriptions_nonproto _ _ _ hproto] at hL
      obtain rfl : (te.subscriptions e').getD [] ++ [c] = L := by
        injection hL
      refine nodup_append_singleton.mpr ⟨?_, ?_⟩
      · cases hs : te.subscriptions e' with
        | none => simp [hs]
        | some L0 => simpa [hs] using h.nodupListeners e' L0 hs
      · intro hmem
        exact hnotmem (by simpa [memListeners] using hmem)
    · rw [subscribe_subscriptions_ne _ _ he] at hL
      exact h.nodupListeners e' L hL
  · intro e' L hL
    by_cases he : e' = e
    · subst he
      rw [subscribe_subscriptions_nonproto _ _ _ hproto] at hL
      obtain rfl : (te.subscriptions e').getD [] ++ [c] = L := by
        injection hL
      simp
    · rw [subscribe_subscriptions_ne _ _ he] at hL
      exact h.listenersNe e' L hL
  · intro e' hp2
    have hne : e' ≠ e := by
      intro heq; rw [heq, hproto] at hp2; cases hp2
    rw [subscribe_subscriptions_ne _ _ hne]
    exact h.protoNone e' hp2
  · intro c' e'
    by_cases he : e' = e
    · subst he
      rw [memListeners, subscribe_subscriptions_nonproto _ _ _ hproto]
      by_cases hc : c' = c
      · subst hc
        rw [subscribe_sockSubs_self, if_neg hfresh]
        simp
      · rw [subscribe_sockSubs_ne _ _ hc]
        have := h.sym c' e'
        rw [memListeners] at this
        simp only [Option.getD_some, List.mem_append, List.mem_singleton]
        rw [← this]
        simp [hc]
    · rw [memListeners, subscribe_subscriptions_ne _ _ he]
      by_cases hc : c' = c
      · subst hc
        rw [subscribe_sockSubs_self, if_neg hfresh]
        have := h.sym c' e'
        rw [memListeners] at this
        rw [this]
        simp [he]
      · rw [subscribe_sockSubs_ne _ _ hc]
        exact h.sym c' e'

/-- Key consequence of duplicate-freedom: erasing the sole member of a
listener array empties it exactly when the array is that singleton. -/
theorem eq_singleton_of_erase_nil {L : List σ} {c : σ} (hnd : L.Nodup)
    (hc : c ∈ L) (hnil : L.erase c = []) : L = [c] := by
  have hlen := List.length_erase_of_mem hc
  rw [hnil] at hlen
  have : L.length = 1 := by
    have hpos : 0 < L.length := List.length_pos.mpr (List.ne_nil_of_mem hc)
    simp only [List.length_nil] at hlen
    omega
  obtain ⟨a, rfl⟩ := List.length_eq_one.mp this
  obtain rfl : c = a := by simpa using hc
  rfl

/-- Unsubscribe — in every case, throwing or not — preserves the
registry invariant on the state it leaves behind. -/
theorem unsubscribe_inv {te : TcpEmitter σ} {c : σ} {e : JStr}
    (h : Inv te) : Inv (unsubscribe c e te).1 := by
  constructor
  · intro x
    rw [unsubscribe_sockSubs]
    split_ifs with hx
    · exact (h.nodupSock c).erase e
    · exact h.nodupSock x
  · intro e' L hL
    by_cases he : e' = e
    · subst he
      cases hs : te.subscriptions e' with
      | none => rw [unsubscribe_subscriptions_none _ _ _ hs] at hL; cases hL
      | some L0 =>
        by_cases hc : c ∈ L0
        · by_cases hnil : L0.erase c = []
          · rw [unsubscribe_subscriptions_last _ _ _ hs hc hnil] at hL
            cases hL
          · rw [unsubscribe_subscriptions_erase _ _ _ hs hc hnil] at hL
            obtain rfl : L0.erase c = L := by injection hL
            exact (h.nodupListeners e' L0 hs).erase c
        · rw [unsubscribe_subscriptions_not_mem _ _ _ hs hc] at hL
          obtain rfl : L0 = L := by injection hL
          exact h.nodupListeners e' L0 hs
    · rw [unsubscribe_subscriptions_ne _ _ he] at hL
      exact h.nodupListeners e' L hL
  · intro e' L hL
    by_cases he : e' = e
    · subst he
      cases hs : te.subscriptions e' with
      | none => rw [unsubscribe_subscriptions_none _ _ _ hs] at hL; cases hL
      | some L0 =>
        by_cases hc : c ∈ L0
        · by_cases hnil : L0.erase c = []
          · rw [unsubscribe_subscriptions_last _ _ _ hs hc hnil] at hL
            cases hL
          · rw [unsubscribe_subscriptions_erase _ _ _ hs hc hnil] at hL
            obtain rfl : L0.erase c = L := by injection hL
            exact hnil
        · rw [unsubscribe_subscriptions_not_mem _ _ _ hs hc] at hL
          obtain rfl : L0 = L := by injection hL
          exact h.listenersNe e' L0 hs
    · rw [unsubscribe_subscriptions_ne _ _ he] at hL
      exact h.listenersNe e' L hL
  · intro e' hp2
    by_cases he : e' = e
    · subst he
      exact unsubscribe_subscriptions_none _ _ _ (h.protoNone e' hp2)
    · rw [unsubscribe_subscriptions_ne _ _ he]
      exact h.protoNone e' hp2
  · intro c' e'
    rw [memListeners, unsubscribe_sockSubs]
    by_cases he : e' = e
    · subst he
      by_cases hc : c' = c
      · subst hc
        rw [if_pos rfl]
        have hnotm : e' ∉ (te.sockSubs c').erase e' :=
          fun hm => absurd rfl (((h.nodupSock c').mem_erase_iff.mp hm).1)
        simp only [hnotm, iff_false]
        cases hs : te.subscriptions e' with
        | none =>
          rw [unsubscribe_subscriptions_none _ _ _ hs]
          simp
        | some L0 =>
          by_cases hcm : c' ∈ L0
          · by_cases hnil : L0.erase c' = []
            · rw [unsubscribe_subscriptions_last _ _ _ hs hcm hnil]
              simp
            · rw [unsubscribe_subscriptions_erase _ _ _ hs hcm hnil]
              intro hmem
              exact absurd rfl
                (((h.nodupListeners e' L0 hs).mem_erase_iff.mp
                  (by simpa using hmem)).1)
          · rw [unsubscribe_subscriptions_not_mem _ _ _ hs hcm]
            intro hmem
            exact hcm (by simpa using hmem)
      · rw [if_neg hc]
        have hsym := h.sym c' e'
        rw [memListeners] at hsym
        rw [← hsym]
        cases hs : te.subscriptions e' with
        | none =>
          rw [unsubscribe_subscriptions_none _ _ _ hs]
        | some L0 =>
          by_cases hcm : c ∈ L0
          · by_cases hnil : L0.erase c = []
            · rw [unsubscribe_subscriptions_last _ _ _ hs hcm hnil]
              obtain rfl := eq_singleton_of_erase_nil
                (h.nodupListeners e' L0 hs) hcm hnil
              simp [hc]
            · rw [unsubscribe_subscriptions_erase _ _ _ hs hcm hnil]
              simp only [Option.getD_some]
              exact ⟨fun hm => List.mem_of_mem_erase hm,
                fun hm => (List.mem_erase_of_ne hc).mpr hm⟩
          · rw [unsubscribe_subscriptions_not_mem _ _ _ hs hcm]
    · rw [unsubscribe_subscriptions_ne _ _ he]
      have hsym := h.sym c' e'
      rw [memListeners] at hsym
      rw [hsym]
      split_ifs with hc
      · subst hc
        exact ((List.mem_erase_of_ne he).symm : _)
      · rfl

/-- In an invariant-satisfying state, no socket's `subscriptions` array
contains a prototype-colliding event name (such a name can never gain an
own registry entry, so symmetry forbids it on the socket side too). -/
theorem sockSubs_nonproto_of_inv {te : TcpEmitter σ} (h : Inv te) {c : σ}
    {e : JStr} (he : e ∈ te.sockSubs c) : isProtoKey e = false := by
  cases hp : isProtoKey e with
  | false => rfl
  | true =>
    exfalso
    have hm := (h.sym c e).mpr he
    rw [memListeners, h.protoNone e hp] at hm
    simp at hm

theorem foldl_unsubscribe_inv (c : σ) : ∀ (l : List JStr)
    (te : TcpEmitter σ), Inv te →
    Inv (l.foldl (fun acc event => (unsubscribe c event acc).1) te) := by
  intro l
  induction l with
  | nil => intro te h; exact h
  | cons a t ih => intro te h; exact ih _ (unsubscribe_inv h)

/-- Over a list of ordinary (non-prototype) event names, the aborting
fold coincides with the plain fold and never aborts. -/
theorem foldUnsub_eq_foldl (c : σ) : ∀ (l : List JStr) (te : TcpEmitter σ),
    (∀ e ∈ l, isProtoKey e = false) →
    foldUnsub c l te
      = (l.foldl (fun acc event => (unsubscribe c event acc).1) te,
          false) := by
  intro l
  induction l with
  | nil => intro te _; rfl
  | cons a t ih =>
    intro te hl
    have hpa : isProtoKey a = false := hl a (List.mem_cons_self a t)
    have hb := unsubscribe_threw_nonproto c a te hpa
    rcases hu : unsubscribe c a te with ⟨te', b⟩
    rw [hu] at hb
    dsimp only at hb
    subst hb
    have h1 : (unsubscribe c a te).1 = te' := by rw [hu]
    calc foldUnsub c (a :: t) te
        = foldUnsub c t te' := by simp only [foldUnsub]; rw [hu]
      _ = (t.foldl (fun acc event => (unsubscribe c event acc).1) te',
            false) :=
          ih te' (fun e hee => hl e (List.mem_cons_of_mem a hee))
      _ = ((a :: t).foldl (fun acc event => (unsubscribe c event acc).1)
            te, false) := by
          rw [List.foldl_cons]
          rw [h1]

/-- Under the invariant, disconnect cleanup never aborts: it equals the
plain fold of unsubscribes over the snapshot. -/
theorem closeHandler_eq_foldl_of_inv {te : TcpEmitter σ} {c : σ}
    (h : Inv te) :
    closeHandler c te
      = ((te.sockSubs c).foldl
          (fun acc event => (unsubscribe c event acc).1) te, false) :=
  foldUnsub_eq_foldl c _ te (fun _ he => sockSubs_nonproto_of_inv h he)

/-- Disconnect cleanup preserves the registry invariant. -/
theorem closeHandler_inv {te : TcpEmitter σ} {c : σ} (h : Inv te) :
    Inv (closeHandler c te).1 := by
  rw [closeHandler_eq_foldl_of_inv h]
  exact foldl_unsubscribe_inv c _ te h

/-- Under the invariant, disconnect cleanup completes without a thrown
`TypeError` aborting it. -/
theorem closeHandler_no_throw {te : TcpEmitter σ} {c : σ} (h : Inv te) :
    (closeHandler c te).2 = false := by
  rw [closeHandler_eq_foldl_of_inv h]

/-- The freshly initialised registry satisfies the invariant. -/
theorem initSt_inv : Inv (initSt : TcpEmitter σ) := by
  refine ⟨fun _ => List.nodup_nil, ?_, ?_, fun _ _ => rfl, ?_⟩
  · intro e L hL; cases hL
  · intro e L hL; cases hL
  · intro c e; simp [memListeners, initSt, init]

/-- A safe sequence of occurrences preserves the registry invariant. -/
theorem safeOps_inv : ∀ (ops : List (Op σ)) (te : TcpEmitter σ),
    Inv te → safeOps ops te = true → Inv (applyOps ops te) := by
  intro ops
  induction ops with
  | nil => intro te h _; exact h
  | cons op rest ih =>
    intro te h hsafe
    cases op with
    | sub c e =>
      rw [safeOps] at hsafe
      by_cases hmem : e ∈ te.sockSubs c
      · rw [if_pos hmem] at hsafe; cases hsafe
      · rw [if_neg hmem] at hsafe
        by_cases hp : isProtoKey e = true
        · rw [if_pos hp] at hsafe; cases hsafe
        · rw [if_neg hp] at hsafe
          have hp' : isProtoKey e = false := by
            simpa using hp
          exact ih _ (subscribe_inv h hmem hp') hsafe
    | unsub c e => exact ih _ (unsubscribe_inv h) hsafe
    | close c => exact ih _ (closeHandler_inv h) hsafe

/-- Generalized disconnect-cleanup lemma: folding `unsubscribe` over a
list that covers the socket's current subscription array removes the
socket from every listener array. -/
theorem foldl_unsubscribe_clears (c : σ) : ∀ (l : List JStr)
    (te : TcpEmitter σ), Inv te → (∀ e', e' ∈ te.sockSubs c → e' ∈ l) →
    ∀ e, ¬ memListeners
      (l.foldl (fun acc event => (unsubscribe c event acc).1) te) e c := by
  intro l
  induction l with
  | nil =>
    intro te h hcov e
    have hnil : te.sockSubs c = [] :=
      List.eq_nil_iff_forall_not_mem.mpr
        (fun e' he' => by simpa using hcov e' he')
    intro hm
    have := (h.sym c e).mp hm
    rw [hnil] at this
    simp at this
  | cons a t ih =>
    intro te h hcov e
    simp only [List.foldl_cons]
    refine ih (unsubscribe c a te).1 (unsubscribe_inv h) ?_ e
    intro e' he'
    rw [unsubscribe_sockSubs, if_pos rfl] at he'
    have h2 := ((h.nodupSock c).mem_erase_iff).mp he'
    rcases hcov e' h2.2 with hmem
    rcases List.mem_cons.mp hmem with rfl | hin
    · exact absurd rfl h2.1
    · exact hin

/-- After disconnect cleanup of an invariant-satisfying registry, the
closed socket appears in no listener array. -/
theorem closeHandler_clears {te : TcpEmitter σ} {c : σ} (h : Inv te) :
    ∀ e, ¬ memListeners (closeHandler c te).1 e c := by
  intro e
  rw [closeHandler_eq_foldl_of_inv h]
  exact foldl_unsubscribe_clears c (te.sockSubs c) te h (fun _ he => he) e

/-! ## The empty-entry pruning invariant (holds with no side condition) -/

/-- Subscribe never creates an empty listener array (on its throwing
inputs it creates nothing at all). -/
theorem subscribe_ne_some_nil {te : TcpEmitter σ}
    (h : ∀ e', te.subscriptions e' ≠ some []) (c : σ) (e : JStr) :
    ∀ e', (subscribe c e te).1.subscriptions e' ≠ some [] := by
  intro e'
  by_cases he : e' = e
  · subst he
    cases hs : te.subscriptions e' with
    | some L => rw [subscribe_subscriptions_some c e' te hs]; simp
    | none =>
      cases hp : isProtoKey e' with
      | true =>
        rw [(subscribe_proto_throws c e' te hp hs).2 e', hs]
        simp
      | false =>
        rw [subscribe_subscriptions_nonproto c e' te hp]
        simp
  · rw [subscribe_subscriptions_ne c te he]; exact h e'

/-- Unsubscribe deletes an entry rather than leaving it empty. -/
theorem unsubscribe_ne_some_nil {te : TcpEmitter σ}
    (h : ∀ e', te.subscriptions e' ≠ some []) (c : σ) (e : JStr) :
    ∀ e', (unsubscribe c e te).1.subscriptions e' ≠ some [] := by
  intro e'
  by_cases he : e' = e
  · subst he
    cases hs : te.subscriptions e' with
    | none => rw [unsubscribe_subscriptions_none _ _ _ hs]; simp
    | some L0 =>
      by_cases hcm : c ∈ L0
      · by_cases hnil : L0.erase c = []
        · rw [unsubscribe_subscriptions_last _ _ _ hs hcm hnil]; simp
        · rw [unsubscribe_subscriptions_erase _ _ _ hs hcm hnil]
          simpa using hnil
      · rw [unsubscribe_subscriptions_not_mem _ _ _ hs hcm]
        rw [← hs]
        exact h e'
  · rw [unsubscribe_subscriptions_ne _ _ he]; exact h e'

theorem foldUnsub_ne_some_nil (c : σ) : ∀ (l : List JStr)
    (te : TcpEmitter σ), (∀ e', te.subscriptions e' ≠ some []) →
    ∀ e', ((foldUnsub c l te).1).subscriptions e' ≠ some [] := by
  intro l
  induction l with
  | nil => intro te h; exact h
  | cons a t ih =>
    intro te h
    have hstep := unsubscribe_ne_some_nil h c a
    rcases hu : unsubscribe c a te with ⟨te', b⟩
    have hstep' : ∀ e', te'.subscriptions e' ≠ some [] := by
      intro e'
      have h3 := hstep e'
      rw [hu] at h3
      exact h3
    cases b with
    | false =>
      intro e'
      have heq : foldUnsub c (a :: t) te = foldUnsub c t te' := by
        simp only [foldUnsub]; rw [hu]
      rw [heq]
      exact ih te' hstep' e'
    | true =>
      intro e'
      have heq : foldUnsub c (a :: t) te = (te', true) := by
        simp only [foldUnsub]; rw [hu]
      rw [heq]
      exact hstep' e'

/-- Every reachable registry state has no empty listener array: any
operation sequence — duplicate and prototype-colliding subscribes
included — preserves the property. -/
theorem applyOps_ne_some_nil : ∀ (ops : List (Op σ)) (te : TcpEmitter σ),
    (∀ e', te.subscriptions e' ≠ some []) →
    ∀ e', (applyOps ops te).subscriptions e' ≠ some [] := by
  intro ops
  induction ops with
  | nil => intro te h; exact h
  | cons op rest ih =>
    intro te h
    cases op with
    | sub c e => exact ih _ (subscribe_ne_some_nil h c e)
    | unsub c e => exact ih _ (unsubscribe_ne_some_nil h c e)
    | close c => exact ih _ (foldUnsub_ne_some_nil c _ te h)

/-! ## Claim C1 — subscribe idempotence -/

/-- Claim C1, counterexample: the claim states that after any number of
`Subscribe(c, e)` calls the listener array `byEvent[e]` contains exactly
one entry for `c`; but after two subscribes of socket `0` to event `"a"`
the listener array contains two entries for it — the push at
`tcp-emitter.js` line 165 is unconditional. -/
theorem subscribe_twice_duplicates_cex :
    ((((subscribe 0 (chars "a")
        (subscribe 0 (chars "a") (initSt : TcpEmitter Nat)).1)
      ).1.subscriptions (chars "a")).getD []).count 0 = 2 ∧
    ¬ ((((subscribe 0 (chars "a")
        (subscribe 0 (chars "a") (initSt : TcpEmitter Nat)).1)
      ).1.subscriptions (chars "a")).getD []).count 0 = 1 := by
  decide

/-- Claim C1, amended: `subscribe` is idempotent only on the socket's own
`subscriptions` array — if the event is already present there, that array
is unchanged.  For an event name that is not an `Object.prototype`
property, every call appends the socket to the event's listener array
unconditionally, so `n` calls add `n` entries for the socket to
`byEvent[e]`.  For an `Object.prototype` name with no own registry
entry, the call instead throws `TypeError` at the push and appends
nothing to the registry. -/
theorem subscribe_appends_listener_unconditionally (te : TcpEmitter σ)
    (c : σ) (e : JStr) :
    (e ∈ te.sockSubs c → (subscribe c e te).1.sockSubs c = te.sockSubs c)
    ∧
    (isProtoKey e = false → ∀ n : Nat,
      ((((fun s => (subscribe c e s).1)^[n] te).subscriptions e).getD []
        ).count c
        = ((te.subscriptions e).getD []).count c + n) ∧
    (isProtoKey e = true → te.subscriptions e = none →
      (subscribe c e te).2 = true ∧
      ∀ e', (subscribe c e te).1.subscriptions e' = te.subscriptions e')
    := by
  refine ⟨?_, ?_, ?_⟩
  · intro h
    rw [subscribe_sockSubs_self, if_pos h]
  · intro hp n
    induction n with
    | zero => simp
    | succ n ih =>
      simp only [Function.iterate_succ_apply']
      rw [subscribe_subscriptions_nonproto _ _ _ hp]
      simp only [Option.getD_some, List.count_append]
      rw [ih]
      simp [List.count_cons]
      omega
  · intro hp hnone
    exact subscribe_proto_throws c e te hp hnone

/-- Claim C1, witness for the amended theorem: the idempotent
`sockSubs` half and the two-step growth at socket `0`, event `"a"`, and
the throwing half at event `"toString"` on the fresh registry. -/
theorem subscribe_appends_listener_unconditionally_witness :
    ((subscribe 0 (chars "a")
        (subscribe 0 (chars "a") (initSt : TcpEmitter Nat)).1).1.sockSubs 0
      = (subscribe 0 (chars "a") (initSt : TcpEmitter Nat)).1.sockSubs 0)
    ∧
    ((((fun s => (subscribe 0 (chars "a") s).1)^[2]
        (subscribe 0 (chars "a") (initSt : TcpEmitter Nat)).1
      ).subscriptions (chars "a")).getD []).count 0
      = (((subscribe 0 (chars "a") (initSt : TcpEmitter Nat)
        ).1.subscriptions (chars "a")).getD []).count 0 + 2 ∧
    ((subscribe 0 (chars "toString") (initSt : TcpEmitter Nat)).2 = true ∧
      ∀ e', (subscribe 0 (chars "toString")
        (initSt : TcpEmitter Nat)).1.subscriptions e'
        = (initSt : TcpEmitter Nat).subscriptions e') :=
  ⟨(subscribe_appends_listener_unconditionally _ 0 (chars "a")).1
      (by decide),
    (subscribe_appends_listener_unconditionally _ 0 (chars "a")).2.1
      (by decide) 2,
    (subscribe_appends_listener_unconditionally _ 0
      (chars "toString")).2.2 (by decide) (by decide)⟩

/-! ## Claim C2 — registry symmetry invariant I1 -/

/-- Claim C2, counterexample: after `Subscribe(0, "a"); Subscribe(0, "a");
Unsubscribe(0, "a")` from the empty registry, socket `0` still appears in
`byEvent["a"]` (the duplicate entry survives the single splice) while
`"a"` is no longer in its `subscriptions` array — the biconditional I1
fails. -/
theorem registry_symmetry_cex :
    ¬ (memListeners
        (applyOps [Op.sub 0 (chars "a"), Op.sub 0 (chars "a"),
          Op.unsub 0 (chars "a")] (initSt : TcpEmitter Nat)) (chars "a") 0
      ↔ (chars "a") ∈
        (applyOps [Op.sub 0 (chars "a"), Op.sub 0 (chars "a"),
          Op.unsub 0 (chars "a")] (initSt : TcpEmitter Nat)).sockSubs 0) := by
  decide

/-- Claim C2, amended: after any sequence of subscribe, unsubscribe and
disconnect-cleanup operations from the empty registry in which no
subscribe targets an already-subscribed `(socket, event)` pair and no
subscribe uses an event name colliding with an `Object.prototype`
property (either kind of subscribe breaks one side of the index: the
first duplicates the listener entry, the second throws after mutating
only the socket's array), a socket appears in `byEvent[e]` iff `e` is in
its `subscriptions` array. -/
theorem registry_symmetry_of_safeOps (ops : List (Op σ))
    (hsafe : safeOps ops initSt = true) (c : σ) (e : JStr) :
    memListeners (applyOps ops initSt) e c
      ↔ e ∈ (applyOps ops initSt).sockSubs c :=
  (safeOps_inv ops initSt initSt_inv hsafe).sym c e

/-- Claim C2, witness: the amended symmetry theorem applied to the
concrete safe sequence `Subscribe(0,"a"); Unsubscribe(0,"a")` at socket
`0` and event `"a"`. -/
theorem registry_symmetry_of_safeOps_witness :
    memListeners
      (applyOps [Op.sub 0 (chars "a"), Op.unsub 0 (chars "a")]
        (initSt : TcpEmitter Nat)) (chars "a") 0
    ↔ (chars "a") ∈
      (applyOps [Op.sub 0 (chars "a"), Op.unsub 0 (chars "a")]
        (initSt : TcpEmitter Nat)).sockSubs 0 :=
  registry_symmetry_of_safeOps _ (by decide) 0 (chars "a")

/-! ## Claim C3 — "subscribed" owner notification -/

/-- Claim C3, evaluation at the failing input: dispatching a subscribe
payload that newly adds the event emits no owner-facing notification at
all — in particular not the required single `subscribed` notification —
because the `subscribe` body in `tcp-emitter.js` contains no `emit`
call and the event names forwarded by `index.js` are never fired. -/
theorem subscribe_emits_no_owner_notification (te : TcpEmitter σ) (c : σ)
    (e : JStr) (hfresh : e ∉ te.sockSubs c) :
    parsePayloadNotifs (PayloadOp.subscribeOp e : PayloadOp Nat) c te
      = [] := by
  rfl

/-- Claim C3, witness: the notification-free dispatch at socket `0`,
event `"a"`, on the fresh registry. -/
theorem subscribe_emits_no_owner_notification_witness :
    parsePayloadNotifs (PayloadOp.subscribeOp (chars "a") : PayloadOp Nat)
      0 (initSt : TcpEmitter Nat) = [] :=
  subscribe_emits_no_owner_notification _ 0 (chars "a") (by decide)

/-! ## Claim C4 — processing never throws -/

/-- Claim C4, evaluation at the failing input: for any parse function
that behaves like `JSON.parse` on the string `"null"` (success, value
`null`), processing the chunk `"null@@@"` with delimiter `"@@@"` throws:
the candidate parses successfully to `null`, so the `catch`-to-`{}`
path is not taken, and the subsequent `payload.type` read raises a
`TypeError`. -/
theorem parseData_throws_on_null_payload (jp : JsonParseFn)
    (hjp : jp (chars "null") = Except.ok Js.nul) :
    parseData jp (chars "@@@") (chars "null@@@") = Except.error () := by
  have hsplit : splitCandidates (chars "@@@") (chars "null@@@")
      = [chars "null"] := by decide
  rw [parseData, hsplit]
  simp only [List.foldlM, parseJSON, hjp, getField]
  rfl

/-- Claim C4, witness: the concrete stand-in `jpNull` satisfies the
`JSON.parse`-behaviour hypothesis, and processing `"null@@@"` with it
throws. -/
theorem parseData_throws_on_null_payload_witness :
    jpNull (chars "null") = Except.ok Js.nul ∧
    parseData jpNull (chars "@@@") (chars "null@@@") = Except.error () :=
  ⟨rfl, parseData_throws_on_null_payload jpNull rfl⟩

/-! ## Claim C5 — admission gate -/

theorem isJsTrue_iff {v : Js} : isJsTrue v = true ↔ v = Js.bool true := by
  cases v with
  | bool b => cases b <;> simp [isJsTrue]
  | nul => simp [isJsTrue]
  | undef => simp [isJsTrue]
  | num n => simp [isJsTrue]
  | str s => simp [isJsTrue]
  | arr xs => simp [isJsTrue]
  | obj fields => simp [isJsTrue]

/-- Claim C5: a newly accepted connection is wired into the pipeline iff
no admission predicate is configured, or the predicate's (awaited)
result is exactly the value `true`; any other return or resolution
value, a synchronous throw, or a rejection ends the connection instead
(`handleSocket` never touches the registry on either path). -/
theorem admission_gate_iff (vc : Option (σ → VerifyOutcome)) (s : σ) :
    handleSocket vc s = SocketFate.wired ↔
      vc = none ∨ ∃ f, vc = some f ∧
        (f s = VerifyOutcome.ret (Js.bool true) ∨
         f s = VerifyOutcome.resolved (Js.bool true)) := by
  have hif : ∀ b : Bool,
      ((if b = false then SocketFate.ended else SocketFate.wired)
        = SocketFate.wired ↔ b = true) := by decide
  rw [handleSocket, hif]
  cases vc with
  | none => simp [isConnectionAllowed]
  | some f =>
    simp only [isConnectionAllowed, Option.some.injEq, reduceCtorEq,
      false_or]
    cases hf : f s with
    | ret v => simp [hf, isJsTrue_iff]
    | resolved v => simp [hf, isJsTrue_iff]
    | thrown => simp [hf]
    | rejected => simp [hf]

/-! ## Claim C6 — frame decoding -/

/-- Claim C6, counterexample: with the non-empty delimiter `"aa"`, the
chunk `"aaa"` consists of the single payload `"a"` terminated by the
delimiter, yet decoding yields the single candidate `""` rather than
`"a"` — the leftmost split consumes the overlapping occurrence of the
delimiter that starts inside the payload. -/
theorem framing_overlap_cex :
    splitCandidates (chars "aa") (chars "a" ++ chars "aa") = [([] : JStr)]
    ∧ [([] : JStr)] ≠ [chars "a"] := by
  decide

/-- Claim C6, amended: the decoder splits the chunk on the configured
non-empty delimiter `D` and unconditionally discards the final split
element; hence — provided `D` occurs in the chunk only as the payload
terminators, i.e. no occurrence of `D` starts inside a payload (which
excludes payloads containing `D` and payloads whose tail overlaps into
their terminator) — a chunk of `n` delimiter-terminated payloads
followed by a delimiter-free trailing remainder yields exactly those `n`
candidate frames in their original order, the remainder contributing
zero frames. -/
theorem splitCandidates_terminated (D : JStr) (ps : List JStr) (r : JStr)
    (hD : D ≠ []) (hps : ∀ p ∈ ps, hasOccur D (p ++ D.dropLast) = false)
    (hr : hasOccur D r = false) :
    splitCandidates D ((ps.map (· ++ D)).flatten ++ r) = ps := by
  rw [splitCandidates, splitOnList_terminated ps r hD hps hr]
  rw [List.dropLast_concat]

/-- Claim C6, witness: with delimiter `"@@@"`, the chunk
`"ab@@@cd@@@x"` — two terminated payloads and a trailing remainder —
decodes to exactly the two payloads. -/
theorem splitCandidates_terminated_witness :
    splitCandidates (chars "@@@")
      ((([chars "ab", chars "cd"]).map (· ++ chars "@@@")).flatten
        ++ chars "x")
      = [chars "ab", chars "cd"] :=
  splitCandidates_terminated (chars "@@@") [chars "ab", chars "cd"]
    (chars "x") (by decide) (by decide) (by decide)

/-! ## Claim C7 — broadcast fan-out and sender exclusion -/

/-- Claim C7, counterexample: the claim says a broadcast to an event
absent from `byEvent` is a silent no-op, but broadcasting to
`"toString"` on the empty registry throws `TypeError` — the inherited
`Object.prototype` value passes the `undefined` guard and has no
`forEach`. -/
theorem broadcast_proto_throws_cex :
    (initSt : TcpEmitter Nat).subscriptions (chars "toString") = none ∧
    (broadcast 0 (chars "toString") (5 : Nat)
      (initSt : TcpEmitter Nat)).2 = true := by
  decide

/-- Claim C7, amended: if `byEvent[event]` has no own entry then — for
an event name that is not an `Object.prototype` property — the call is a
silent no-op, while for an `Object.prototype` name it throws `TypeError`
at `listeners.forEach` without performing any write; otherwise every
performed write targets a listener of the event other than the sender
and carries the serialized `{event, args}` frame terminated by the
configured delimiter, every non-sender listener receives that frame, no
write ever targets the sender, and the call does not throw. -/
theorem broadcast_writes_spec (te : TcpEmitter σ) (c : σ) (e : JStr)
    (a : α) :
    (te.subscriptions e = none → isProtoKey e = false →
      broadcast c e a te = ([], false)) ∧
    (te.subscriptions e = none → isProtoKey e = true →
      broadcast c e a te = ([], true)) ∧
    (∀ w ∈ (broadcast c e a te).1,
      w.1 ∈ (te.subscriptions e).getD [] ∧ w.1 ≠ c ∧
      w.2 = WireMsg.mk e a te.delimiter) ∧
    (∀ l ∈ (te.subscriptions e).getD [], l ≠ c →
      (l, WireMsg.mk e a te.delimiter) ∈ (broadcast c e a te).1) ∧
    (∀ L, te.subscriptions e = some L → (broadcast c e a te).2 = false)
    := by
  refine ⟨?_, ?_, ?_, ?_, ?_⟩
  · intro h hp; simp [broadcast, h, hp]
  · intro h hp; simp [broadcast, h, hp]
  · intro w hw
    cases hs : te.subscriptions e with
    | none =>
      rw [broadcast] at hw
      rw [hs] at hw
      cases hw
    | some L =>
      rw [broadcast] at hw
      rw [hs] at hw
      simp only [List.mem_map, List.mem_filter] at hw
      obtain ⟨l, ⟨hl, hlc⟩, rfl⟩ := hw
      refine ⟨by simpa [hs] using hl, by simpa using hlc, rfl⟩
  · intro l hl hlc
    cases hs : te.subscriptions e with
    | none => rw [hs] at hl; cases hl
    | some L =>
      rw [hs] at hl
      rw [broadcast, hs]
      simp only [List.mem_map, List.mem_filter]
      exact ⟨l, ⟨by simpa using hl, by simpa using hlc⟩, rfl⟩
  · intro L h; simp [broadcast, h]

/-- Claim C7, witness: with sockets `0` and `1` both subscribed to
`"a"`, socket `0` broadcasting args `5` delivers the frame to socket
`1`, and the silent no-op at the ordinary absent event `"b"`. -/
theorem broadcast_writes_spec_witness :
    ((1 : Nat), WireMsg.mk (chars "a") (5 : Nat) (chars "@@@")) ∈
      (broadcast 0 (chars "a") 5
        (subscribe 1 (chars "a")
          (subscribe 0 (chars "a") (initSt : TcpEmitter Nat)).1).1).1 ∧
    broadcast 0 (chars "b") (5 : Nat) (initSt : TcpEmitter Nat)
      = ([], false) :=
  ⟨(broadcast_writes_spec _ 0 (chars "a") 5).2.2.2.1 1
      (by decide) (by decide),
    (broadcast_writes_spec _ 0 (chars "b") 5).1 (by decide) (by decide)⟩

/-! ## Claim C8 — disconnect cleanup -/

/-- Claim C8, counterexample: a socket that subscribed twice to `"a"`
and then disconnects still appears in `byEvent["a"]` after the close
handler runs — the snapshot contains `"a"` once, so only one of the two
duplicate listener entries is spliced out. -/
theorem closeHandler_leaves_reference_cex :
    memListeners
      (closeHandler 0
        (applyOps [Op.sub 0 (chars "a"), Op.sub 0 (chars "a")]
          (initSt : TcpEmitter Nat))).1 (chars "a") 0 := by
  decide

/-- Claim C8, amended: the close handler folds `unsubscribe` over a
snapshot of the socket's `subscriptions` array, aborting if an
unsubscribe throws; provided the registry was reached by an operation
sequence free of duplicate subscribes and of subscribes to
`Object.prototype` event names, no unsubscribe in the fold throws and
afterwards `byEvent` holds no reference to the closed socket under any
event name. -/
theorem closeHandler_clears_of_safeOps (ops : List (Op σ)) (c : σ)
    (hsafe : safeOps ops initSt = true) :
    (∀ e, ¬ memListeners (closeHandler c (applyOps ops initSt)).1 e c) ∧
    (closeHandler c (applyOps ops initSt)).2 = false :=
  ⟨closeHandler_clears (safeOps_inv ops initSt initSt_inv hsafe),
    closeHandler_no_throw (safeOps_inv ops initSt initSt_inv hsafe)⟩

/-- Claim C8, witness: socket `0`, subscribed to `"a"` and `"b"`, leaves
no reference under `"a"` after its close handler runs, and the cleanup
completes without aborting. -/
theorem closeHandler_clears_of_safeOps_witness :
    (¬ memListeners
      (closeHandler 0
        (applyOps [Op.sub 0 (chars "a"), Op.sub 0 (chars "b")]
          (initSt : TcpEmitter Nat))).1 (chars "a") 0) ∧
    (closeHandler 0
      (applyOps [Op.sub 0 (chars "a"), Op.sub 0 (chars "b")]
        (initSt : TcpEmitter Nat))).2 = false :=
  ⟨(closeHandler_clears_of_safeOps _ 0 (by decide)).1 (chars "a"),
    (closeHandler_clears_of_safeOps
      [Op.sub 0 (chars "a"), Op.sub 0 (chars "b")] 0 (by decide)).2⟩

/-! ## Claim C9 — empty-entry pruning invariant I2 -/

/-- Claim C9: no reachable registry state maps an event name to an empty
listener array — any operation sequence from the empty registry,
duplicate and prototype-colliding subscribes included, preserves this —
and an `unsubscribe` that removes the last listener of an event deletes
the event's entry from `byEvent` entirely. -/
theorem empty_entry_pruning :
    (∀ (ops : List (Op σ)) (e : JStr),
      (applyOps ops initSt).subscriptions e ≠ some []) ∧
    (∀ (te : TcpEmitter σ) (c : σ) (e : JStr),
      te.subscriptions e = some [c] →
      (unsubscribe c e te).1.subscriptions e = none) := by
  constructor
  · intro ops e
    refine applyOps_ne_some_nil ops initSt (fun e' => ?_) e
    simp [initSt, init]
  · intro te c e h
    exact unsubscribe_subscriptions_last c e te h (by simp) (by simp)

/-- Claim C9, witness: the reachable-state half at the one-subscription
state, and the direct pruning half removing the last subscriber of
`"a"`. -/
theorem empty_entry_pruning_witness :
    ((applyOps [Op.sub 0 (chars "a")]
      (initSt : TcpEmitter Nat)).subscriptions (chars "b") ≠ some []) ∧
    ((unsubscribe 0 (chars "a")
      (subscribe 0 (chars "a") (initSt : TcpEmitter Nat)).1
      ).1.subscriptions (chars "a") = none) :=
  ⟨empty_entry_pruning.1 [Op.sub 0 (chars "a")] (chars "b"),
    empty_entry_pruning.2 _ 0 (chars "a") (by decide)⟩

/-! ## Claim C10 — broadcast is registry-read-only -/

/-- Claim C10: dispatching a broadcast payload leaves the entire
registry state unchanged — the whole state record, every per-event
listener array (hence the key set of `byEvent`, with membership and
order), and every socket's `subscriptions` array are identical before
and after, on the throwing inputs included. -/
theorem broadcast_registry_readonly (te : TcpEmitter σ) (c : σ)
    (e : JStr) (a : α) :
    (parsePayload (PayloadOp.broadcastOp e a) c te).1 = te ∧
    (∀ e', (parsePayload (PayloadOp.broadcastOp e a) c te
      ).1.subscriptions e' = te.subscriptions e') ∧
    (∀ x, (parsePayload (PayloadOp.broadcastOp e a) c te).1.sockSubs x
      = te.sockSubs x) :=
  ⟨rfl, fun _ => rfl, fun _ => rfl⟩

end TcpEmitterSrv
